import Mathlib

/-!
Shallow embedding of the real-time duplex audio session manager
(`src/services/liveClient.ts`, class `LiveClient`) of the J.A.R.V.I.S.
voice-assistant front end.

Modelling conventions:
* Machine floats are modelled as rationals (`ℚ`).  The square root used in
  the RMS loudness computation is irrational in general, so the RMS value is
  passed symbolically to the frame/chunk processing functions and constrained
  by `0 ≤ rms ∧ rms * rms = meanSquare frame` in the theorems.
* The mutable fields of the `LiveClient` object become the record
  `ClientState`; nullable resource fields (`inputAudioContext`,
  `outputAudioContext`, `stream`, `processor`, `source`, `sessionPromise`)
  become booleans recording whether the resource is currently allocated.
* Calls the client makes to its collaborator (`onStatusChange`,
  `onAudioData`, `onLog`, `onError`), to the playback sink
  (`source.start`, `source.stop`) and to the session
  (`sendRealtimeInput`, `sendToolResponse`) become an explicit `Effect`
  trace returned next to the successor state.
* The log entry `id` and `timestamp` fields are generated from randomness
  and the wall clock; they are omitted from the model, which keeps the
  deterministic `source`, `message` and `type` fields.
-/

namespace LiveClient

/-- A log entry as delivered to `onLog` (`LogEntry` of `types.ts`), without
the nondeterministic `id`/`timestamp` fields. -/
structure LogEntry where
  source : String
  message : String
  type : String
deriving DecidableEq, Repr

/-- One element of `message.toolCall.functionCalls`: `{id, name, args}`.
The argument object is kept abstract as its serialized form. -/
structure FunctionCall where
  id : String
  name : String
  args : String
deriving DecidableEq, Repr

/-- Outcome of one call of the collaborator-supplied handler
`onSystemAction(name, args)`: it either resolves with a value (kept abstract
as a string) or rejects with an error whose `.message` is the given string. -/
inductive ToolOutcome where
  | success (v : String)
  | failure (msg : String)
deriving DecidableEq, Repr

/-- The collaborator-supplied tool handler `(name, args) → result`. -/
def Handler : Type := String → String → ToolOutcome

/-- The `response.result` field of an outbound tool reply: either the
value from the handler or the structured failure payload `{error, status}`. -/
inductive ReplyResult where
  | val (v : String)
  | failPayload (error : String) (status : String)
deriving DecidableEq, Repr

/-- Observable actions of the client: collaborator callbacks, playback-sink
operations and outbound session traffic. -/
inductive Effect where
  | statusChange (s : String)
  | audioData (volume : ℚ)
  | log (e : LogEntry)
  | errorMsg (m : String)
  | toolReply (id : String) (name : String) (result : ReplyResult)
  | sendFrame (pcm : List ℤ)
  | scheduleChunk (start : ℚ) (duration : ℚ)
  | stopSource (h : ℕ)
deriving DecidableEq, Repr

/-- One element of `serverContent.modelTurn.parts`; `inlineData` carries the
decoded audio bytes when present (`inlineData.data`, base64 in the wire
form).  An empty byte list models the falsy empty string `""`. -/
structure Part where
  inlineData : Option (List ℕ)
deriving DecidableEq, Repr

/-- The `serverContent.modelTurn` object. -/
structure ModelTurn where
  parts : List Part
deriving DecidableEq, Repr

/-- The `serverContent` object of an inbound message. -/
structure ServerContent where
  modelTurn : Option ModelTurn
  interrupted : Bool
deriving DecidableEq, Repr

/-- An inbound `LiveServerMessage`: optional tool calls, optional server
content with at most one audio chunk and an interruption flag. -/
structure Message where
  toolCall : Option (List FunctionCall)
  serverContent : Option ServerContent
deriving DecidableEq, Repr

/-- The mutable state of a `LiveClient` object.  `nextStartTime` is the
gapless playback cursor, `activeSources` the set of active playback handles
(represented by the numeric ids an arena would assign, `nextHandle` being
the next fresh id), and the boolean fields record which nullable resource
fields are currently allocated. -/
structure ClientState where
  nextStartTime : ℚ
  activeSources : List ℕ
  nextHandle : ℕ
  isMuted : Bool
  hasInputCtx : Bool
  hasOutputCtx : Bool
  hasStream : Bool
  hasProcessor : Bool
  hasSource : Bool
  hasSession : Bool
deriving DecidableEq, Repr

/-- The freshly constructed client: every resource field null, cursor 0,
no active sources, not muted. -/
def initialState : ClientState :=
  ⟨0, [], 0, false, false, false, false, false, false, false⟩

/-- `setMute(muted)`: only flips the `isMuted` flag. -/
def setMute (muted : Bool) (st : ClientState) : ClientState :=
  { st with isMuted := muted }

/-- The error string taken from a failed handler: `err.message || "Unknown
tool failure"` — the default steps in exactly when the message is the empty
(falsy) string. -/
def errString (msg : String) : String :=
  if msg = "" then "Unknown tool failure" else msg

/-- The `response.result` value sent back for one invocation: the value from the handler on success, the structured `{error, status: "FAILED"}` payload on
failure. -/
def toolResult (handler : Handler) (fc : FunctionCall) : ReplyResult :=
  match handler fc.name fc.args with
  | .success v => .val v
  | .failure msg => .failPayload (errString msg) "FAILED"

/-- Effects of dispatching one tool invocation (body of the `for` loop of
`handleMessage`, step 1): an info log before dispatch, an error log when the
handler fails, then `sendToolResponse` via `sessionPromise?.then` — the
reply is emitted only when a session promise is present. -/
def dispatchCall (handler : Handler) (hasSession : Bool) (fc : FunctionCall) :
    List Effect :=
  [.log ⟨"JARVIS", "Executing protocol: " ++ fc.name, "info"⟩] ++
  (match handler fc.name fc.args with
   | .success _ => []
   | .failure msg =>
     [.log ⟨"SYSTEM", "CRITICAL: Tool Failure (" ++ fc.name ++ ") - " ++
            errString msg, "error"⟩]) ++
  (if hasSession then [.toolReply fc.id fc.name (toolResult handler fc)] else [])

/-- Step 1 of `handleMessage`: dispatch every element of
`message.toolCall.functionCalls` in order. -/
def toolCallEffects (handler : Handler) (hasSession : Bool) (m : Message) :
    List Effect :=
  match m.toolCall with
  | some fcs => fcs.flatMap (dispatchCall handler hasSession)
  | none => []

/-- Modelled from the spec: `decodeAudioData` lives in `utils/audioUtils`,
which is absent from the sources.  Per §4.2 and the call site it decodes the
bytes as 16-bit PCM at 24 kHz mono, so the buffer duration in seconds is the
16-bit sample count divided by the sample rate. -/
def chunkDuration (bytes : List ℕ) : ℚ := ((bytes.length / 2 : ℕ) : ℚ) / 24000

/-- Modelled from the spec: `float32ToPCM16` lives in `utils/audioUtils`,
absent from the sources.  Per §4.1 it converts each float sample to 16-bit
PCM by clamping to [-1, 1] and scaling to the signed 16-bit range. -/
def float32ToPCM16 (xs : List ℚ) : List ℤ :=
  xs.map (fun x => ⌊max (-1) (min 1 x) * 32767⌋)

/-- The playback-path visualizer value: `Math.min(1, rms * 5)` (line 262). -/
def playbackVolume (rms : ℚ) : ℚ := min 1 (rms * 5)

/-- The mean of the squared samples of a capture frame; the RMS of the code is
its square root (`Math.sqrt(sum / inputData.length)`). -/
def meanSquare (frame : List ℚ) : ℚ :=
  (frame.map (fun x => x * x)).sum / (frame.length : ℚ)

/-- `message.serverContent?.modelTurn?.parts[0]?.inlineData?.data`
(line 250): only the FIRST element of `parts` is ever examined. -/
def extractAudio (m : Message) : Option (List ℕ) :=
  match m.serverContent with
  | none => none
  | some sc =>
    match sc.modelTurn with
    | none => none
    | some t =>
      match t.parts.head? with
      | none => none
      | some p => p.inlineData

/-- The playback enqueue of `handleMessage` step 2 (lines 265-280):
`nextStartTime = max(nextStartTime, currentTime)`, start the source there,
advance the cursor by the chunk duration, register the handle.  Returns the
new state and the scheduled `(start, duration)` pair. -/
def enqueueAudio (now : ℚ) (bytes : List ℕ) (st : ClientState) :
    ClientState × (ℚ × ℚ) :=
  let start := max st.nextStartTime now
  let dur := chunkDuration bytes
  ({ st with
      nextStartTime := start + dur,
      activeSources := st.activeSources ++ [st.nextHandle],
      nextHandle := st.nextHandle + 1 },
   (start, dur))

/-- Step 2 of `handleMessage` (lines 249-281): guarded by the truthiness of
the base64 data (nonempty byte list) and the presence of the output audio
context; reports the clamped playback loudness, then enqueues the chunk.
`pbRms` is the RMS over the byte pairs, passed symbolically. -/
def audioStep (now pbRms : ℚ) (m : Message) (st : ClientState) :
    ClientState × List Effect :=
  match extractAudio m with
  | some (b :: bs) =>
    if st.hasOutputCtx then
      ((enqueueAudio now (b :: bs) st).1,
       [.audioData (playbackVolume pbRms),
        .scheduleChunk (enqueueAudio now (b :: bs) st).2.1
          (enqueueAudio now (b :: bs) st).2.2])
    else (st, [])
  | _ => (st, [])

/-- Step 3 of `handleMessage` (lines 283-295): on
`serverContent.interrupted`, stop every registered source, clear the set,
reset the cursor to 0 and log a warning. -/
def interruptStep (m : Message) (st : ClientState) : ClientState × List Effect :=
  match m.serverContent with
  | some sc =>
    if sc.interrupted then
      ({ st with activeSources := [], nextStartTime := 0 },
       st.activeSources.map Effect.stopSource ++
       [.log ⟨"SYSTEM", "Output Interrupted", "warning"⟩])
    else (st, [])
  | none => (st, [])

/-- `handleMessage` (lines 207-296): tool calls, then the audio chunk, then
the interruption flag, all from the single message.  `now` is the output
clock (`outputAudioContext.currentTime`) and `pbRms` the RMS of the playback chunk, passed symbolically. -/
def handleMessage (handler : Handler) (now pbRms : ℚ) (m : Message)
    (st : ClientState) : ClientState × List Effect :=
  ((interruptStep m (audioStep now pbRms m st).1).1,
   toolCallEffects handler st.hasSession m ++
   (audioStep now pbRms m st).2 ++
   (interruptStep m (audioStep now pbRms m st).1).2)

/-- The `onaudioprocess` callback body of `startAudioStreaming`
(lines 328-354): when muted the frame is dropped before anything happens;
otherwise the loudness is reported when above the noise floor, and the
encoded frame is handed to the session via `sessionPromise?.then`.  `rms`
is passed symbolically (the code computes `Math.sqrt(meanSquare frame)`). -/
def onAudioProcess (st : ClientState) (frame : List ℚ) (rms : ℚ) :
    List Effect :=
  if st.isMuted then []
  else
    (if rms > 1/100 then [.audioData (rms * 5)] else []) ++
    (if st.hasSession then [.sendFrame (float32ToPCM16 frame)] else [])

/-- `startAudioStreaming` (lines 322-358): returns unchanged unless both
the input context and the stream are present; otherwise allocates the
source and processor nodes. -/
def startAudioStreaming (st : ClientState) : ClientState :=
  if st.hasInputCtx && st.hasStream then
    { st with hasSource := true, hasProcessor := true }
  else st

/-- The `onopen` callback (lines 195-205): report `CONNECTED`, log, start
the capture pipeline. -/
def handleOpen (st : ClientState) : ClientState × List Effect :=
  (startAudioStreaming st,
   [.statusChange "CONNECTED",
    .log ⟨"SYSTEM", "J.A.R.V.I.S. Protocol Online", "success"⟩])

/-- The `onclose` callback (lines 311-320): report `DISCONNECTED` and log a
warning; no field of the client is touched. -/
def handleClose (st : ClientState) : ClientState × List Effect :=
  (st,
   [.statusChange "DISCONNECTED",
    .log ⟨"SYSTEM", "J.A.R.V.I.S. Protocol Offline", "warning"⟩])

/-- Decides whether the JavaScript `String.prototype.includes` holds, over
character lists: `occursIn pat s` is true when `pat` is a contiguous
sublist of `s`. -/
def leadsWith : List Char → List Char → Bool
  | [], _ => true
  | _ :: _, [] => false
  | a :: as, b :: bs => a = b && leadsWith as bs

/-- Occurrence of `pat` anywhere in `s` (see `leadsWith`). -/
def occursIn (pat : List Char) : List Char → Bool
  | [] => pat.isEmpty
  | c :: rest => leadsWith pat (c :: rest) || occursIn pat rest

/-- `s.includes(pat)` of JavaScript, for the error-message categorization. -/
def includes (s pat : String) : Bool := occursIn pat.data s.data

/-- The error-message categorization of the `connect` catch block
(lines 175-182): `errorMessage` starts as the message of the thrown error (or
the default when the thrown value is not an `Error`), then the three
`includes` rewrites are applied in sequence. -/
def categorize (err : Option String) : String :=
  match err with
  | none => "Unknown Connection Protocol Error"
  | some m =>
    let m1 := if includes m "403" then
        "ACCESS DENIED: Invalid API Key or Permissions." else m
    let m2 := if includes m1 "503" then
        "SERVICE UNAVAILABLE: Server Overload." else m1
    if includes m2 "Failed to fetch" then
        "NETWORK FAILURE: Unable to reach command servers." else m2

/-- The effects of the `connect` catch block (lines 171-192): status
`ERROR`, the categorized `onError` message, and one error log. -/
def connectFailEffects (msg : String) : List Effect :=
  [.statusChange "ERROR", .errorMsg msg,
   .log ⟨"SYSTEM", "Connection Aborted: " ++ msg, "error"⟩]

/-- Where `connect` fails, if it fails.  `micFail`: `getUserMedia` rejects
(device denial) — both audio contexts were already constructed.
`transportFail`: `client.live.connect` throws synchronously — contexts and
stream were already acquired.  The payload is the `.message` of the thrown error
(`none` when the thrown value is not an `Error`). -/
inductive ConnectOutcome where
  | ok
  | micFail (err : Option String)
  | transportFail (err : Option String)
deriving DecidableEq, Repr

/-- `connect` (lines 132-193): reports `CONNECTING`, constructs both audio
contexts, acquires the microphone, opens the session.  On failure the catch
block runs, but nothing allocated before the failing step is released.
`CONNECTED` is only ever reported later, by the `onopen` callback. -/
def connect (outcome : ConnectOutcome) (st : ClientState) :
    ClientState × List Effect :=
  match outcome with
  | .ok =>
    ({ st with hasInputCtx := true, hasOutputCtx := true,
               hasStream := true, hasSession := true },
     [.statusChange "CONNECTING"])
  | .micFail err =>
    ({ st with hasInputCtx := true, hasOutputCtx := true },
     .statusChange "CONNECTING" :: connectFailEffects (categorize err))
  | .transportFail err =>
    ({ st with hasInputCtx := true, hasOutputCtx := true, hasStream := true },
     .statusChange "CONNECTING" :: connectFailEffects (categorize err))

/-- `disconnect` (lines 360-398): release the processor, source, stream and
both contexts, stop and clear every active source (stops wrapped in
try/catch), then await and close the session, swallowing any error.  The
model assumes the session transport fires the registered `onclose` callback
(`handleClose`) when a live session is closed, which is how `DISCONNECTED`
is reported; `disconnect` itself calls `onStatusChange` nowhere.  The
function is total: every failure path in the code is swallowed. -/
def disconnect (st : ClientState) : ClientState × List Effect :=
  let st1 : ClientState :=
    { st with hasProcessor := false, hasSource := false, hasStream := false,
              hasInputCtx := false, hasOutputCtx := false,
              activeSources := [], hasSession := false }
  (st1,
   st.activeSources.map Effect.stopSource ++
   (if st.hasSession then (handleClose st1).2 else []))

/-- The status last reported over `onStatusChange` after the given effect
trace, starting from `init` — the session state as the collaborator sees
it. -/
def lastStatus (effs : List Effect) (init : String) : String :=
  effs.foldl (fun acc e => match e with | .statusChange s => s | _ => acc) init

/-- Iterated playback enqueue: fold `enqueueAudio` over a sequence of
(output-clock reading, chunk bytes) pairs, collecting the scheduled
`(start, duration)` pairs.  This is exactly the audio path of a run of
inbound audio messages with no intervening interruption. -/
def runEnqueues (st : ClientState) : List (ℚ × List ℕ) → List (ℚ × ℚ)
  | [] => []
  | (now, bytes) :: rest =>
    (enqueueAudio now bytes st).2 ::
      runEnqueues (enqueueAudio now bytes st).1 rest

/-- Extracts an outbound tool reply from an effect. -/
def getReply : Effect → Option (String × String × ReplyResult)
  | .toolReply i n r => some (i, n, r)
  | _ => none

/-! Concrete fixtures used to instantiate the theorems. -/

/-- A connected client: all resources allocated, session live, not muted. -/
def stConn : ClientState :=
  ⟨0, [], 0, false, true, true, true, true, true, true⟩

/-- A connected client that has been muted. -/
def stMuted : ClientState :=
  ⟨0, [], 0, true, true, true, true, true, true, true⟩

/-- A connected client with two chunks pending (handles 5 and 7) and the
playback cursor at 4 seconds. -/
def stPending : ClientState :=
  ⟨4, [5, 7], 9, false, true, true, true, true, true, true⟩

/-- A handler that always succeeds. -/
def handlerOk : Handler := fun _ _ => .success "ok"

/-- A handler that always rejects with message "boom". -/
def handlerBoom : Handler := fun _ _ => .failure "boom"

/-- A message carrying two tool invocations and nothing else. -/
def mTools : Message := ⟨some [⟨"1", "X", "a"⟩, ⟨"2", "Y", "b"⟩], none⟩

/-- The C4 scenario message: the single invocation `id "1"`, `name "X"`. -/
def mBoom : Message := ⟨some [⟨"1", "X", ""⟩], none⟩

/-- A pure interruption message. -/
def mInt : Message := ⟨none, some ⟨none, true⟩⟩

/-- A message whose audio data sits only in the SECOND part; the first part
has no inline data. -/
def mLater : Message :=
  ⟨none, some ⟨some ⟨[⟨none⟩, ⟨some [1, 2, 3, 4]⟩]⟩, false⟩⟩

/-- A full-scale capture frame: four samples at 1.0, mean square 1, RMS 1. -/
def frame1 : List ℚ := [1, 1, 1, 1]

end LiveClient

namespace LiveClient

/-! Helper lemmas. -/

theorem chunkDuration_nonneg (bytes : List ℕ) : 0 ≤ chunkDuration bytes := by
  unfold chunkDuration
  positivity

theorem runEnqueues_lb (inputs : List (ℚ × List ℕ)) :
    ∀ st : ClientState, ∀ x ∈ runEnqueues st inputs,
      st.nextStartTime ≤ x.1 ∧ 0 ≤ x.2 := by
  induction inputs with
  | nil => intro st x hx; simp [runEnqueues] at hx
  | cons p rest ih =>
    intro st x hx
    obtain ⟨now, bytes⟩ := p
    simp only [runEnqueues, enqueueAudio, List.mem_cons] at hx
    rcases hx with h | h
    · subst h
      exact ⟨le_max_left _ _, chunkDuration_nonneg _⟩
    · have hx2 := ih _ x h
      refine ⟨?_, hx2.2⟩
      calc st.nextStartTime
          ≤ max st.nextStartTime now := le_max_left _ _
        _ ≤ max st.nextStartTime now + chunkDuration bytes :=
            le_add_of_nonneg_right (chunkDuration_nonneg _)
        _ ≤ x.1 := hx2.1

/-- C1: each enqueued chunk is scheduled at `max(nextPlaybackTime, now)`,
the cursor then advances by the chunk duration; consequently over any run of
enqueues with no intervening interruption the scheduled starts are
non-decreasing, every chunk starts no earlier than the previous start plus
its duration, and no two scheduled chunks overlap. -/
theorem playback_schedule_gapless_no_overlap
    (st : ClientState) (inputs : List (ℚ × List ℕ)) :
    (∀ now : ℚ, ∀ bytes : List ℕ,
       (enqueueAudio now bytes st).2 =
         (max st.nextStartTime now, chunkDuration bytes) ∧
       (enqueueAudio now bytes st).1.nextStartTime =
         max st.nextStartTime now + chunkDuration bytes) ∧
    List.Pairwise (fun a b : ℚ × ℚ => a.1 + a.2 ≤ b.1 ∧ a.1 ≤ b.1)
      (runEnqueues st inputs) := by
  constructor
  · intro now bytes; exact ⟨rfl, rfl⟩
  · induction inputs generalizing st with
    | nil => simp [runEnqueues]
    | cons p rest ih =>
      obtain ⟨now, bytes⟩ := p
      simp only [runEnqueues, enqueueAudio, List.pairwise_cons]
      refine ⟨?_, ih _⟩
      intro y hy
      have h := runEnqueues_lb rest _ y hy
      simp only at h
      refine ⟨h.1, ?_⟩
      calc max st.nextStartTime now
          ≤ max st.nextStartTime now + chunkDuration bytes :=
            le_add_of_nonneg_right (chunkDuration_nonneg _)
        _ ≤ y.1 := h.1

theorem interruptStep_interrupted {m : Message} {sc : ServerContent}
    (hsc : m.serverContent = some sc) (hint : sc.interrupted = true)
    (st : ClientState) :
    interruptStep m st =
      ({ st with activeSources := [], nextStartTime := 0 },
       st.activeSources.map Effect.stopSource ++
       [.log ⟨"SYSTEM", "Output Interrupted", "warning"⟩]) := by
  simp [interruptStep, hsc, hint]

theorem audioStep_sources (now pbRms : ℚ) (m : Message) (st : ClientState) :
    ∀ h ∈ st.activeSources, h ∈ (audioStep now pbRms m st).1.activeSources := by
  intro h hh
  unfold audioStep
  cases hA : extractAudio m with
  | none => simpa using hh
  | some bytes =>
    cases bytes with
    | nil => simpa using hh
    | cons b bs =>
      by_cases hc : st.hasOutputCtx
      · simp [enqueueAudio, hc, List.mem_append, hh]
      · simpa [hc] using hh

/-- C2: a message carrying the interruption flag stops every currently
registered playback handle, empties the active-handle set, resets the
playback cursor to zero (whatever was pending), and the next enqueued chunk
is scheduled at the current output clock time. -/
theorem interrupt_resets_playback (handler : Handler) (now pbRms : ℚ)
    (m : Message) (st : ClientState) (sc : ServerContent)
    (hsc : m.serverContent = some sc) (hint : sc.interrupted = true)
    (hnow : 0 ≤ now) :
    (handleMessage handler now pbRms m st).1.activeSources = [] ∧
    (handleMessage handler now pbRms m st).1.nextStartTime = 0 ∧
    (∀ h ∈ (audioStep now pbRms m st).1.activeSources,
       Effect.stopSource h ∈ (handleMessage handler now pbRms m st).2) ∧
    (∀ h ∈ st.activeSources,
       Effect.stopSource h ∈ (handleMessage handler now pbRms m st).2) ∧
    (∀ bytes : List ℕ,
       (enqueueAudio now bytes (handleMessage handler now pbRms m st).1).2.1
         = now) := by
  have hstep := interruptStep_interrupted hsc hint (audioStep now pbRms m st).1
  have hmem : ∀ h ∈ (audioStep now pbRms m st).1.activeSources,
      Effect.stopSource h ∈ (handleMessage handler now pbRms m st).2 := by
    intro h hh
    simp only [handleMessage, hstep, List.mem_append, List.mem_map]
    right; left
    exact ⟨h, hh, rfl⟩
  refine ⟨?_, ?_, hmem, ?_, ?_⟩
  · simp [handleMessage, hstep]
  · simp [handleMessage, hstep]
  · intro h hh
    exact hmem h (audioStep_sources now pbRms m st h hh)
  · intro bytes
    have h0 : (handleMessage handler now pbRms m st).1.nextStartTime = 0 := by
      simp [handleMessage, hstep]
    simp [enqueueAudio, h0, max_eq_right hnow]

/-- C2 witness: two pending chunks, then a pure interruption message. -/
theorem interrupt_resets_playback_witness :
    (handleMessage handlerOk 1 0 mInt stPending).1.activeSources = [] ∧
    (handleMessage handlerOk 1 0 mInt stPending).1.nextStartTime = 0 ∧
    Effect.stopSource 5 ∈ (handleMessage handlerOk 1 0 mInt stPending).2 ∧
    Effect.stopSource 7 ∈ (handleMessage handlerOk 1 0 mInt stPending).2 ∧
    (enqueueAudio 1 [9, 9] (handleMessage handlerOk 1 0 mInt stPending).1).2.1
      = 1 := by
  have h := interrupt_resets_playback handlerOk 1 0 mInt stPending
    ⟨none, true⟩ rfl rfl (by norm_num)
  exact ⟨h.1, h.2.1, h.2.2.2.1 5 (by decide), h.2.2.2.1 7 (by decide),
    h.2.2.2.2 [9, 9]⟩

theorem audioStep_no_reply (now pbRms : ℚ) (m : Message) (st : ClientState) :
    (audioStep now pbRms m st).2.filterMap getReply = [] := by
  unfold audioStep
  cases hA : extractAudio m with
  | none => rfl
  | some bytes =>
    cases bytes with
    | nil => rfl
    | cons b bs =>
      by_cases hc : st.hasOutputCtx <;> simp [hc, getReply]

theorem interruptStep_no_reply (m : Message) (st : ClientState) :
    (interruptStep m st).2.filterMap getReply = [] := by
  unfold interruptStep
  cases hs : m.serverContent with
  | none => rfl
  | some sc =>
    by_cases hi : sc.interrupted <;>
      simp [hi, getReply, List.filterMap_append, List.filterMap_map,
        Function.comp]

theorem dispatchCall_reply (handler : Handler) (fc : FunctionCall) :
    (dispatchCall handler true fc).filterMap getReply =
      [(fc.id, fc.name, toolResult handler fc)] := by
  unfold dispatchCall
  cases hh : handler fc.name fc.args <;>
    simp [hh, getReply, List.filterMap_append]

theorem flatMap_dispatch_reply (handler : Handler) (fcs : List FunctionCall) :
    (fcs.flatMap (dispatchCall handler true)).filterMap getReply =
      fcs.map (fun fc => (fc.id, fc.name, toolResult handler fc)) := by
  induction fcs with
  | nil => rfl
  | cons fc rest ih =>
    simp only [List.flatMap_cons, List.filterMap_append, ih,
      dispatchCall_reply, List.map_cons, List.singleton_append]

/-- C3: while a session is present, processing a message answers every tool
invocation it carries exactly once, in order, each reply carrying the same
correlation id and name together with a result — also when the handler
fails (the result is then the structured failure payload). -/
theorem tool_invocations_answered_exactly_once (handler : Handler)
    (now pbRms : ℚ) (m : Message) (st : ClientState)
    (fcs : List FunctionCall) (hm : m.toolCall = some fcs)
    (hs : st.hasSession = true) :
    (handleMessage handler now pbRms m st).2.filterMap getReply =
      fcs.map (fun fc => (fc.id, fc.name, toolResult handler fc)) := by
  simp only [handleMessage, List.filterMap_append, toolCallEffects, hm, hs,
    flatMap_dispatch_reply, audioStep_no_reply, interruptStep_no_reply,
    List.append_nil]

/-- C3 witness: a message with two invocations, one succeeding handler. -/
theorem tool_invocations_answered_exactly_once_witness :
    (handleMessage handlerOk 0 0 mTools stConn).2.filterMap getReply =
      ([⟨"1", "X", "a"⟩, ⟨"2", "Y", "b"⟩] : List FunctionCall).map
        (fun fc => (fc.id, fc.name, toolResult handlerOk fc)) :=
  tool_invocations_answered_exactly_once handlerOk 0 0 mTools stConn
    [⟨"1", "X", "a"⟩, ⟨"2", "Y", "b"⟩] rfl rfl

/-- C4: when the handler rejects with a (nonempty) message, the dispatcher
logs the failure at error severity and replies with the structured
`{error, status: "FAILED"}` payload under the same invocation id and
name. -/
theorem tool_failure_structured_reply (handler : Handler) (now pbRms : ℚ)
    (m : Message) (st : ClientState) (fc : FunctionCall) (msg : String)
    (hm : m.toolCall = some [fc]) (hs : st.hasSession = true)
    (hf : handler fc.name fc.args = .failure msg) (hmsg : msg ≠ "") :
    Effect.toolReply fc.id fc.name (.failPayload msg "FAILED") ∈
      (handleMessage handler now pbRms m st).2 ∧
    Effect.log ⟨"SYSTEM",
        "CRITICAL: Tool Failure (" ++ fc.name ++ ") - " ++ msg, "error"⟩ ∈
      (handleMessage handler now pbRms m st).2 := by
  have he : errString msg = msg := if_neg hmsg
  constructor <;>
  · simp only [handleMessage, List.mem_append, toolCallEffects, hm, hs]
    left; left
    simp [dispatchCall, hf, toolResult, he]

/-- C4 witness: the scenario `{id: "1", name: "X"}` with a handler that
rejects with "boom" yields the reply
`{id: "1", name: "X", response: {result: {error: "boom", status:
"FAILED"}}}` and an error log. -/
theorem tool_failure_structured_reply_witness :
    Effect.toolReply "1" "X" (.failPayload "boom" "FAILED") ∈
      (handleMessage handlerBoom 0 0 mBoom stConn).2 ∧
    Effect.log ⟨"SYSTEM", "CRITICAL: Tool Failure (X) - boom", "error"⟩ ∈
      (handleMessage handlerBoom 0 0 mBoom stConn).2 := by
  have h := tool_failure_structured_reply handlerBoom 0 0 mBoom stConn
    ⟨"1", "X", ""⟩ "boom" rfl rfl rfl (by decide)
  exact ⟨h.1, h.2⟩

/-- C5: while muted, a capture frame is dropped before any processing — no
loudness callback and no outbound frame; `setMute` is a pure local toggle
(it changes only the mute flag, in particular not the session), and once
unmuted both the loudness report and the frame transmission occur again for
subsequent frames. -/
theorem mute_drops_capture_frames (st : ClientState) (frame : List ℚ)
    (rms : ℚ) (hmute : st.isMuted = true) :
    onAudioProcess st frame rms = [] ∧
    (setMute false st).isMuted = false ∧
    (setMute false st).hasSession = st.hasSession ∧
    (setMute false st).hasProcessor = st.hasProcessor ∧
    (setMute false st).hasStream = st.hasStream ∧
    (st.hasSession = true →
       Effect.sendFrame (float32ToPCM16 frame) ∈
         onAudioProcess (setMute false st) frame rms) ∧
    (rms > 1/100 →
       Effect.audioData (rms * 5) ∈
         onAudioProcess (setMute false st) frame rms) := by
  refine ⟨by simp [onAudioProcess, hmute], rfl, rfl, rfl, rfl, ?_, ?_⟩
  · intro hs
    simp [onAudioProcess, setMute, hs]
  · intro hr
    have hr2 : (100 : ℚ)⁻¹ < rms := by simpa [one_div] using hr
    simp [onAudioProcess, setMute, hr2]

/-- C5 witness: a muted connected client drops the loud frame `frame1`;
after unmuting, the same frame is both reported and transmitted. -/
theorem mute_drops_capture_frames_witness :
    onAudioProcess stMuted frame1 1 = [] ∧
    Effect.sendFrame (float32ToPCM16 frame1) ∈
      onAudioProcess (setMute false stMuted) frame1 1 ∧
    Effect.audioData (1 * 5) ∈ onAudioProcess (setMute false stMuted) frame1 1 := by
  have h := mute_drops_capture_frames stMuted frame1 1 rfl
  exact ⟨h.1, h.2.2.2.2.2.1 rfl, h.2.2.2.2.2.2 (by norm_num)⟩

/-- C6 counterexample: when `connect` fails at the microphone-permission
step, the catch block reports the failure but closes nothing — both audio
contexts constructed before the failing step are still allocated
afterwards, so the claim that no capture or playback resource is left
dangling is false on the code. -/
theorem connect_failure_leaves_contexts_allocated :
    (connect (.micFail (some "Permission denied")) initialState).1.hasInputCtx
      = true ∧
    (connect (.micFail (some "Permission denied")) initialState).1.hasOutputCtx
      = true := by
  decide

/-- C6 amended: on a failed `connect` the session reports `ERROR`, exactly
one user-facing error message (the categorized text) plus an error log
event, never reports `CONNECTED`, and neither the capture pipeline nor the
session is started; however resources allocated before the failing step
(the audio contexts, and for a transport failure also the stream) remain
allocated until `disconnect()`. -/
theorem connect_failure_reports_error (err : Option String)
    (st : ClientState) :
    (connect (.micFail err) st).1.hasProcessor = st.hasProcessor ∧
    (connect (.micFail err) st).1.hasSession = st.hasSession ∧
    (connect (.micFail err) st).1.hasStream = st.hasStream ∧
    (connect (.micFail err) st).2.countP
      (fun e => match e with | .errorMsg _ => true | _ => false) = 1 ∧
    Effect.errorMsg (categorize err) ∈ (connect (.micFail err) st).2 ∧
    (connect (.micFail err) st).2.countP
      (fun e => match e with
        | .statusChange s => s == "CONNECTED" | _ => false) = 0 ∧
    lastStatus (connect (.micFail err) st).2 "DISCONNECTED" = "ERROR" ∧
    Effect.log ⟨"SYSTEM", "Connection Aborted: " ++ categorize err, "error"⟩
      ∈ (connect (.micFail err) st).2 ∧
    (connect (.transportFail err) st).2 = (connect (.micFail err) st).2 := by
  refine ⟨rfl, rfl, rfl, ?_, ?_, ?_, ?_, ?_, rfl⟩
  · simp [connect, connectFailEffects, List.countP_cons]
  · simp [connect, connectFailEffects]
  · simp [connect, connectFailEffects, List.countP_cons]
  · simp [connect, connectFailEffects, lastStatus]
  · simp [connect, connectFailEffects]

/-- C7: evaluation of the capture path at the failing input — the
full-scale frame `frame1` has mean square 1, so its RMS is exactly 1, it
clears the noise floor, and the value handed to the loudness callback is
`1 * 5 = 5`, which is outside `[0, 1]`; the capture path applies no clamp
(only the playback path `playbackVolume` does). -/
theorem capture_volume_exceeds_one :
    (0 : ℚ) ≤ 1 ∧ (1 : ℚ) * 1 = meanSquare frame1 ∧
    Effect.audioData 5 ∈ onAudioProcess stConn frame1 1 ∧
    ¬ ((5 : ℚ) ≤ 1) ∧
    playbackVolume 1 ≤ 1 := by
  have hfloor : (1 : ℚ) > 1/100 := by norm_num
  refine ⟨by norm_num, ?_, ?_, by norm_num, by norm_num [playbackVolume]⟩
  · norm_num [meanSquare, frame1]
  · simp [onAudioProcess, stConn, hfloor]
    norm_num

/-- C8 counterexample: after a `connect` that failed at the
microphone-permission step, the last reported status is `ERROR`; calling
`disconnect()` emits no status transition (there is no session whose close
callback could fire), so the reported session state stays `ERROR`, not
`DISCONNECTED`. -/
theorem disconnect_after_failed_connect_stays_error :
    lastStatus
      ((connect (.micFail (some "NotAllowedError")) initialState).2 ++
       (disconnect
         (connect (.micFail (some "NotAllowedError")) initialState).1).2)
      "DISCONNECTED" = "ERROR" ∧
    "ERROR" ≠ "DISCONNECTED" := by
  decide

/-- C8 amended: `disconnect()` is total (every failure is swallowed), safe
from any state, releases every capture/playback resource and clears the
session handle, and is idempotent — a second call changes nothing and emits
nothing.  When a live session existed, the close callback reports
`DISCONNECTED`; after a failed `connect` (no session) no status is emitted,
so the reported state remains whatever it was (`ERROR`). -/
theorem disconnect_idempotent_releases_all (st : ClientState) :
    disconnect (disconnect st).1 = ((disconnect st).1, []) ∧
    (disconnect st).1.hasProcessor = false ∧
    (disconnect st).1.hasSource = false ∧
    (disconnect st).1.hasStream = false ∧
    (disconnect st).1.hasInputCtx = false ∧
    (disconnect st).1.hasOutputCtx = false ∧
    (disconnect st).1.activeSources = [] ∧
    (disconnect st).1.hasSession = false ∧
    (∀ s0 : String, st.hasSession = true →
       lastStatus (disconnect st).2 s0 = "DISCONNECTED") := by
  refine ⟨rfl, rfl, rfl, rfl, rfl, rfl, rfl, rfl, ?_⟩
  intro s0 hs
  simp [disconnect, hs, handleClose, lastStatus, List.foldl_append]

/-- C8 witness: a connected client with pending chunks — the second
`disconnect` is a no-op and the close callback reported `DISCONNECTED`. -/
theorem disconnect_idempotent_releases_all_witness :
    disconnect (disconnect stPending).1 = ((disconnect stPending).1, []) ∧
    lastStatus (disconnect stPending).2 "CONNECTED" = "DISCONNECTED" := by
  have h := disconnect_idempotent_releases_all stPending
  exact ⟨h.1, h.2.2.2.2.2.2.2.2 "CONNECTED" rfl⟩

/-- C9: the remote-initiated close callback only reports `DISCONNECTED` and
logs; it changes no field of the client, so the capture pipeline keeps
going — an unmuted frame still produces the loudness report and is still
encoded and handed to the (settled) session for transmission. -/
theorem remote_close_releases_nothing (st : ClientState) (frame : List ℚ)
    (rms : ℚ) :
    (handleClose st).1 = st ∧
    (handleClose st).2 =
      [.statusChange "DISCONNECTED",
       .log ⟨"SYSTEM", "J.A.R.V.I.S. Protocol Offline", "warning"⟩] ∧
    (st.isMuted = false → st.hasSession = true →
       Effect.sendFrame (float32ToPCM16 frame) ∈
         onAudioProcess (handleClose st).1 frame rms) ∧
    (st.isMuted = false → rms > 1/100 →
       Effect.audioData (rms * 5) ∈
         onAudioProcess (handleClose st).1 frame rms) := by
  refine ⟨rfl, rfl, ?_, ?_⟩
  · intro hm hs
    simp [handleClose, onAudioProcess, hm, hs]
  · intro hm hr
    have hr2 : (100 : ℚ)⁻¹ < rms := by simpa [one_div] using hr
    simp [handleClose, onAudioProcess, hm, hr2]

/-- C9 witness: a connected client after a remote close still transmits and
reports the loud frame `frame1`. -/
theorem remote_close_releases_nothing_witness :
    (handleClose stConn).1 = stConn ∧
    Effect.sendFrame (float32ToPCM16 frame1) ∈
      onAudioProcess (handleClose stConn).1 frame1 1 ∧
    Effect.audioData (1 * 5) ∈
      onAudioProcess (handleClose stConn).1 frame1 1 := by
  have h := remote_close_releases_nothing stConn frame1 1
  exact ⟨h.1, h.2.2.1 rfl rfl, h.2.2.2 rfl (by norm_num)⟩

/-- C10: only the first element of `serverContent.modelTurn.parts` is
examined for inline audio — when that first part carries no inline data the
message produces no playback scheduling, no handle registration and no
loudness callback, whatever the later parts carry. -/
theorem only_first_part_audio_examined (handler : Handler) (now pbRms : ℚ)
    (st : ClientState) (p : Part) (rest : List Part)
    (hp : p.inlineData = none) :
    handleMessage handler now pbRms ⟨none, some ⟨some ⟨p :: rest⟩, false⟩⟩ st
      = (st, []) := by
  simp [handleMessage, toolCallEffects, audioStep, extractAudio, hp,
    interruptStep]

/-- C10 witness: the message `mLater`, whose audio bytes sit only in the
second part, is a complete no-op. -/
theorem only_first_part_audio_examined_witness :
    handleMessage handlerOk 0 0 mLater stConn = (stConn, []) :=
  only_first_part_audio_examined handlerOk 0 0 stConn ⟨none⟩
    [⟨some [1, 2, 3, 4]⟩] rfl

end LiveClient
